import Mathlib

/-!
Verification of the copilot-api gateway core against its design description.

The development shallowly embeds the repository's billing-cycle manager,
request handlers, SSE heartbeat manager, API-key middleware and (modelled
from the design text, as its file is absent) the streaming protocol
translator, and proves or refutes the stated properties.

Timestamps are modelled as natural-number milliseconds (`Date.now()`), and
the JavaScript counters as integers with the explicit `max 0` floors the
source applies.
-/

set_option maxHeartbeats 1000000

/-! ## Billing cycle manager (src/lib/billing-cycle.ts) -/

/-- The per-request billing verdict: `user` is billed, `agent` is not. -/
inductive Initiator where
  | user
  | agent
 deriving DecidableEq, Repr

/-- State of the `BillingCycleManager` singleton: `inCycle`,
`lastResponseTime` (0 until a response ever completes) and
`pendingResponses` (an integer in the source, floored at 0 on decrement). -/
structure BillingCycle where
  inCycle : Bool
  lastResponseTime : Nat
  pendingResponses : Int
 deriving DecidableEq, Repr

/-- `CYCLE_TIMEOUT_MS = 5 * 60 * 1000` from the source. -/
def CYCLE_TIMEOUT_MS : Nat := 5 * 60 * 1000

/-- The idle state the manager is constructed in, and that `reset()`
restores: not in a cycle, no recorded response, no pending responses. -/
def initialBilling : BillingCycle :=
  { inCycle := false, lastResponseTime := 0, pendingResponses := 0 }

/-- The lazy-expiry check at the top of `determineInitiator`: if in a cycle
with no pending responses and more than `CYCLE_TIMEOUT_MS` since the last
response, leave the cycle. -/
def checkExpiry (now : Nat) (s : BillingCycle) : BillingCycle :=
  if s.inCycle = true ∧ s.pendingResponses = 0
      ∧ now - s.lastResponseTime > CYCLE_TIMEOUT_MS then
    { s with inCycle := false }
  else
    s

/-- The critical section of `determineInitiator`, run under the promise
lock: expiry check, then bill (`user`) when not in a cycle, else `agent`;
either way a pending response is registered. -/
def determineInitiator (now : Nat) (s : BillingCycle) :
    Initiator × BillingCycle :=
  let s1 := checkExpiry now s
  if s1.inCycle = false then
    (Initiator.user,
      { s1 with inCycle := true, pendingResponses := s1.pendingResponses + 1 })
  else
    (Initiator.agent,
      { s1 with pendingResponses := s1.pendingResponses + 1 })

/-- `markResponseComplete()`: record the response time and decrement the
pending counter with a floor of 0. -/
def markResponseComplete (now : Nat) (s : BillingCycle) : BillingCycle :=
  { s with lastResponseTime := now,
           pendingResponses := max 0 (s.pendingResponses - 1) }

/-- `markRequestFailed()`: decrement with floor 0; if afterwards nothing is
pending and no response has ever completed (`lastResponseTime == 0`), leave
the cycle. -/
def markRequestFailed (s : BillingCycle) : BillingCycle :=
  let p := max 0 (s.pendingResponses - 1)
  if p = 0 ∧ s.lastResponseTime = 0 then
    { s with pendingResponses := p, inCycle := false }
  else
    { s with pendingResponses := p }

/-- The serialized execution of N `determineInitiator` critical sections.
The promise-chained lock in the source runs concurrent callers' critical
sections strictly one at a time, so an N-way concurrent call is some
sequential run; the list gives the time `Date.now()` observed by each
section in execution order. -/
def runDetermines : BillingCycle → List Nat → List Initiator × BillingCycle
  | s, [] => ([], s)
  | s, t :: ts =>
    let r := determineInitiator t s
    let rest := runDetermines r.2 ts
    (r.1 :: rest.1, rest.2)

/-- One call to the manager's mutating API. -/
inductive BillingOp where
  | determine (now : Nat)
  | complete (now : Nat)
  | fail
  | reset

/-- Apply one manager call to the state. -/
def applyBillingOp (s : BillingCycle) : BillingOp → BillingCycle
  | BillingOp.determine now => (determineInitiator now s).2
  | BillingOp.complete now => markResponseComplete now s
  | BillingOp.fail => markRequestFailed s
  | BillingOp.reset => initialBilling

/-- Run a sequence of manager calls from a starting state. -/
def runBillingOps (s : BillingCycle) (ops : List BillingOp) : BillingCycle :=
  ops.foldl applyBillingOp s

/-- Boolean recogniser for the billed verdict. -/
def isUser : Initiator → Bool
  | Initiator.user => true
  | Initiator.agent => false

/-- Boolean recogniser for the unbilled verdict. -/
def isAgent : Initiator → Bool
  | Initiator.user => false
  | Initiator.agent => true

/-! ### Billing-cycle lemmas -/

lemma checkExpiry_pendingResponses (now : Nat) (s : BillingCycle) :
    (checkExpiry now s).pendingResponses = s.pendingResponses := by
  unfold checkExpiry
  split <;> rfl

lemma checkExpiry_lastResponseTime (now : Nat) (s : BillingCycle) :
    (checkExpiry now s).lastResponseTime = s.lastResponseTime := by
  unfold checkExpiry
  split <;> rfl

lemma checkExpiry_of_not_inCycle (now : Nat) (s : BillingCycle)
    (h : s.inCycle = false) : checkExpiry now s = s := by
  unfold checkExpiry
  rw [if_neg]
  rintro ⟨h1, -, -⟩
  rw [h] at h1
  exact Bool.false_ne_true h1

lemma checkExpiry_of_pending_pos (now : Nat) (s : BillingCycle)
    (h : 0 < s.pendingResponses) : checkExpiry now s = s := by
  unfold checkExpiry
  rw [if_neg]
  rintro ⟨-, h2, -⟩
  omega

lemma determineInitiator_inCycle (now : Nat) (s : BillingCycle) :
    (determineInitiator now s).2.inCycle = true := by
  simp only [determineInitiator]
  split
  · rfl
  · next h =>
    simpa using Bool.eq_true_of_not_eq_false h

lemma determineInitiator_of_inCycle_pending (now : Nat) (s : BillingCycle)
    (h : s.inCycle = true) (hp : 0 < s.pendingResponses) :
    determineInitiator now s
      = (Initiator.agent,
          { s with pendingResponses := s.pendingResponses + 1 }) := by
  unfold determineInitiator
  rw [checkExpiry_of_pending_pos now s hp]
  rw [if_neg]
  simp [h]

lemma runDetermines_all_agent (ts : List Nat) (s : BillingCycle)
    (h : s.inCycle = true) (hp : 0 < s.pendingResponses) :
    (runDetermines s ts).1 = List.replicate ts.length Initiator.agent := by
  induction ts generalizing s with
  | nil => rfl
  | cons t ts ih =>
    unfold runDetermines
    rw [determineInitiator_of_inCycle_pending t s h hp]
    simp only [List.length_cons, List.replicate_succ, List.cons.injEq,
      true_and]
    have hp1 : (0 : Int) <
        ({ s with pendingResponses := s.pendingResponses + 1 }
          : BillingCycle).pendingResponses := by
      show (0 : Int) < s.pendingResponses + 1
      omega
    exact ih _ h hp1

lemma countP_replicate_false {α : Type} (p : α → Bool) (n : Nat) (a : α)
    (h : p a = false) : (List.replicate n a).countP p = 0 := by
  induction n with
  | zero => rfl
  | succ n ih =>
    rw [List.replicate_succ, List.countP_cons, h]
    simpa using ih

lemma countP_replicate_true {α : Type} (p : α → Bool) (n : Nat) (a : α)
    (h : p a = true) : (List.replicate n a).countP p = n := by
  induction n with
  | zero => rfl
  | succ n ih =>
    rw [List.replicate_succ, List.countP_cons, h]
    simp [ih]

/-- C1: with the promise-chained lock serializing the critical sections,
any number N ≥ 1 of concurrent `determineInitiator` calls on an idle cycle
(`inCycle` false, `pendingResponses` 0) yields exactly one `user` verdict
and N - 1 `agent` verdicts, whatever times the serialized sections
observe. -/
theorem billing_concurrent_exactly_one_user (s : BillingCycle)
    (ts : List Nat) (hc : s.inCycle = false) (hp : s.pendingResponses = 0)
    (hne : ts ≠ []) :
    (runDetermines s ts).1.countP isUser = 1
      ∧ (runDetermines s ts).1.countP isAgent = ts.length - 1 := by
  cases ts with
  | nil => exact absurd rfl hne
  | cons t ts =>
    unfold runDetermines
    have hce := checkExpiry_of_not_inCycle t s hc
    have hdet : determineInitiator t s
        = (Initiator.user,
            { s with inCycle := true,
                     pendingResponses := s.pendingResponses + 1 }) := by
      unfold determineInitiator
      rw [hce, if_pos hc]
    rw [hdet]
    have hrest := runDetermines_all_agent ts
      { s with inCycle := true, pendingResponses := s.pendingResponses + 1 }
      rfl (by show (0 : Int) < s.pendingResponses + 1; omega)
    simp only [List.countP_cons, hrest]
    constructor
    · rw [countP_replicate_false isUser ts.length Initiator.agent rfl]
      rfl
    · rw [countP_replicate_true isAgent ts.length Initiator.agent rfl]
      simp [isAgent, List.length_cons]

/-- Witness for C1 at a concrete three-way concurrent burst. -/
theorem billing_concurrent_exactly_one_user_witness :
    (runDetermines initialBilling [0, 5, 7]).1.countP isUser = 1
      ∧ (runDetermines initialBilling [0, 5, 7]).1.countP isAgent
          = [0, 5, 7].length - 1 :=
  billing_concurrent_exactly_one_user initialBilling [0, 5, 7]
    rfl rfl (by decide)

/-- C2 fails as stated. First scenario: a non-first request fails after a
success in the cycle, and the next `determineInitiator` call (made more
than five minutes after the last response) returns `user`, not `agent`.
Second scenario: the first request of a cycle fails before any completion
in that cycle while a second request is still pending; the cycle is not
closed and the next call returns `agent`, not `user`. -/
theorem billing_fail_paths_counterexample :
    ((determineInitiator 400200 (markRequestFailed
        ((determineInitiator 200 (markResponseComplete 100
          ((determineInitiator 0 initialBilling).2))).2))).1
      = Initiator.user
    ∧ Initiator.user ≠ Initiator.agent)
    ∧ ((markRequestFailed
          ((determineInitiator 10
            ((determineInitiator 0 initialBilling).2)).2)).inCycle = true
      ∧ (determineInitiator 20 (markRequestFailed
            ((determineInitiator 10
              ((determineInitiator 0 initialBilling).2)).2))).1
          = Initiator.agent) := by
  decide

/-- C2 amended: (a) if a failure leaves `pendingResponses` at 0 while
`lastResponseTime` is still 0 (no response has ever completed since the
idle state) — in particular when the cycle's lone first request fails —
the cycle is closed and the next `determineInitiator` call returns `user`;
(b) if a request fails after at least one completed response
(`lastResponseTime > 0`), the cycle stays open and a next call made within
`CYCLE_TIMEOUT_MS` of the last response returns `agent`. -/
theorem billing_fail_paths_amended (s : BillingCycle) :
    (s.inCycle = true → s.pendingResponses = 1 → s.lastResponseTime = 0 →
      (markRequestFailed s).inCycle = false
        ∧ ∀ t, (determineInitiator t (markRequestFailed s)).1
            = Initiator.user)
    ∧ (s.inCycle = true → 0 < s.lastResponseTime →
        (markRequestFailed s).inCycle = true
          ∧ ∀ t, t - (markRequestFailed s).lastResponseTime
                ≤ CYCLE_TIMEOUT_MS →
              (determineInitiator t (markRequestFailed s)).1
                = Initiator.agent) := by
  constructor
  · intro hc hp hl
    have hfail : markRequestFailed s
        = { s with pendingResponses := 0, inCycle := false } := by
      unfold markRequestFailed
      rw [hp]
      rw [if_pos ⟨by decide, hl⟩]
      simp
    rw [hfail]
    refine ⟨rfl, ?_⟩
    intro t
    unfold determineInitiator
    rw [checkExpiry_of_not_inCycle t _ rfl]
    rw [if_pos rfl]
  · intro hc hl
    have hfail : markRequestFailed s
        = { s with pendingResponses := max 0 (s.pendingResponses - 1) } := by
      unfold markRequestFailed
      rw [if_neg]
      rintro ⟨-, h0⟩
      omega
    rw [hfail]
    refine ⟨hc, ?_⟩
    intro t ht
    have hlt : ¬ (t - s.lastResponseTime > CYCLE_TIMEOUT_MS) := by
      simp only [hfail] at ht
      omega
    unfold determineInitiator
    have hce : checkExpiry t
        { s with pendingResponses := max 0 (s.pendingResponses - 1) }
        = { s with pendingResponses := max 0 (s.pendingResponses - 1) } := by
      unfold checkExpiry
      rw [if_neg]
      rintro ⟨-, -, h3⟩
      exact hlt h3
    rw [hce, if_neg]
    all_goals simp [hc]

/-- Witness for the amended C2 at a concrete cycle: part (a) on a cycle
whose lone first request fails, part (b) on a failure after a success. -/
theorem billing_fail_paths_amended_witness :
    ((markRequestFailed
        { inCycle := true, lastResponseTime := 0, pendingResponses := 1 }
        : BillingCycle).inCycle = false
      ∧ (determineInitiator 50 (markRequestFailed
          { inCycle := true, lastResponseTime := 0,
            pendingResponses := 1 })).1 = Initiator.user)
    ∧ ((markRequestFailed
          { inCycle := true, lastResponseTime := 100,
            pendingResponses := 1 } : BillingCycle).inCycle = true
      ∧ (determineInitiator 200 (markRequestFailed
            { inCycle := true, lastResponseTime := 100,
              pendingResponses := 1 })).1 = Initiator.agent) := by
  have ha := (billing_fail_paths_amended
    { inCycle := true, lastResponseTime := 0, pendingResponses := 1 }).1
    rfl rfl rfl
  have hb := (billing_fail_paths_amended
    { inCycle := true, lastResponseTime := 100, pendingResponses := 1 }).2
    rfl (by decide)
  exact ⟨⟨ha.1, ha.2 50⟩, ⟨hb.1, hb.2 200 (by decide)⟩⟩

/-- C3 fails as stated at the five-minute boundary: with exactly
`CYCLE_TIMEOUT_MS` elapsed since the last response and no pending
responses, the next call returns `agent`, although "at least 5 minutes
have elapsed" (the source requires strictly more than 5 minutes). -/
theorem billing_expiry_boundary_counterexample :
    (determineInitiator 300100 (markResponseComplete 100
        ((determineInitiator 0 initialBilling).2))).1 = Initiator.agent
    ∧ 300100 - 100 ≥ CYCLE_TIMEOUT_MS
    ∧ (markResponseComplete 100
        ((determineInitiator 0 initialBilling).2)).pendingResponses = 0 := by
  decide

/-- C3 amended: (a) after any verdict followed by `markResponseComplete`,
a `determineInitiator` call made at most `CYCLE_TIMEOUT_MS` after that
completion returns `agent`; (b) whenever strictly more than
`CYCLE_TIMEOUT_MS` has elapsed since the last response with no pending
responses, the next call returns `user` (the expiry check runs only inside
`determineInitiator` and only when `pendingResponses` is 0). -/
theorem billing_expiry_amended (s : BillingCycle) :
    (∀ t0 t1 t2, (determineInitiator t0 s).1 = Initiator.user →
        t2 - t1 ≤ CYCLE_TIMEOUT_MS →
        (determineInitiator t2 (markResponseComplete t1
          (determineInitiator t0 s).2)).1 = Initiator.agent)
    ∧ (∀ t, s.pendingResponses = 0 →
        t - s.lastResponseTime > CYCLE_TIMEOUT_MS →
        (determineInitiator t s).1 = Initiator.user) := by
  constructor
  · intro t0 t1 t2 _ ht
    set s1 := (determineInitiator t0 s).2 with hs1
    have hc1 : s1.inCycle = true := determineInitiator_inCycle t0 s
    set s2 := markResponseComplete t1 s1 with hs2
    have hc2 : s2.inCycle = true := hc1
    have hl2 : s2.lastResponseTime = t1 := rfl
    have hce : checkExpiry t2 s2 = s2 := by
      unfold checkExpiry
      rw [if_neg]
      rintro ⟨-, -, h3⟩
      rw [hl2] at h3
      omega
    unfold determineInitiator
    rw [hce, if_neg]
    all_goals simp [hc2]
  · intro t hp hl
    unfold determineInitiator
    by_cases hc : s.inCycle = true
    · have hce : checkExpiry t s = { s with inCycle := false } := by
        unfold checkExpiry
        rw [if_pos ⟨hc, hp, hl⟩]
      rw [hce, if_pos rfl]
    · have hcf : s.inCycle = false := by
        cases h : s.inCycle
        · rfl
        · exact absurd h hc
      rw [checkExpiry_of_not_inCycle t s hcf, if_pos hcf]

/-- Witness for the amended C3: a prompt follow-up call returns `agent`;
after strictly more than five minutes of quiet it returns `user`. -/
theorem billing_expiry_amended_witness :
    (determineInitiator 100 (markResponseComplete 50
        (determineInitiator 0 initialBilling).2)).1 = Initiator.agent
    ∧ (determineInitiator 400200
        { inCycle := true, lastResponseTime := 100,
          pendingResponses := 0 }).1 = Initiator.user := by
  have ha := (billing_expiry_amended initialBilling).1 0 50 100
    (by decide) (by decide)
  have hb := (billing_expiry_amended
    { inCycle := true, lastResponseTime := 100, pendingResponses := 0 }).2
    400200 rfl (by decide)
  exact ⟨ha, hb⟩

lemma applyBillingOp_nonneg (s : BillingCycle) (op : BillingOp)
    (h : 0 ≤ s.pendingResponses) :
    0 ≤ (applyBillingOp s op).pendingResponses := by
  cases op with
  | determine now =>
    show 0 ≤ (determineInitiator now s).2.pendingResponses
    have hpe := checkExpiry_pendingResponses now s
    simp only [determineInitiator]
    split
    · show (0 : Int) ≤ (checkExpiry now s).pendingResponses + 1
      omega
    · show (0 : Int) ≤ (checkExpiry now s).pendingResponses + 1
      omega
  | complete now =>
    show (0 : Int) ≤ max 0 (s.pendingResponses - 1)
    exact le_max_left 0 _
  | fail =>
    show 0 ≤ (markRequestFailed s).pendingResponses
    simp only [markRequestFailed]
    split
    · exact le_max_left 0 _
    · exact le_max_left 0 _
  | reset => exact le_refl 0

lemma runBillingOps_nonneg (ops : List BillingOp) (s : BillingCycle)
    (h : 0 ≤ s.pendingResponses) :
    0 ≤ (runBillingOps s ops).pendingResponses := by
  induction ops generalizing s with
  | nil => exact h
  | cons op ops ih =>
    exact ih (applyBillingOp s op) (applyBillingOp_nonneg s op h)

/-- C8: over every sequence of manager calls from the idle state,
`pendingResponses` stays non-negative; and the lazy timeout check closes a
cycle only in a state whose `pendingResponses` is 0. -/
theorem billing_invariants :
    (∀ ops, 0 ≤ (runBillingOps initialBilling ops).pendingResponses)
    ∧ (∀ s now, s.inCycle = true → (checkExpiry now s).inCycle = false →
        s.pendingResponses = 0) := by
  constructor
  · intro ops
    exact runBillingOps_nonneg ops initialBilling (le_refl 0)
  · intro s now hc hclosed
    unfold checkExpiry at hclosed
    split at hclosed
    · next h => exact h.2.1
    · rw [hc] at hclosed
      exact absurd hclosed (by decide)

/-- Witness for C8 at a concrete call sequence and a concrete expiring
state. -/
theorem billing_invariants_witness :
    0 ≤ (runBillingOps initialBilling
        [BillingOp.determine 0, BillingOp.fail,
          BillingOp.complete 5]).pendingResponses
    ∧ ({ inCycle := true, lastResponseTime := 10, pendingResponses := 0 }
        : BillingCycle).pendingResponses = 0 := by
  refine ⟨billing_invariants.1 _, ?_⟩
  exact billing_invariants.2
    { inCycle := true, lastResponseTime := 10, pendingResponses := 0 }
    400000 rfl (by decide)

/-! ## Chat-completion handlers (src/routes/chat-completions/handler.ts and
the Anthropic messages handler) -/

/-- An observable side effect of the handler's reply path. `markComplete`
and `markFailed` denote calls to `billingCycleManager.markResponseComplete`
and `.markRequestFailed`. -/
inductive HandlerAction where
  | jsonReply
  | startHeartbeat
  | writeChunk
  | markComplete
  | markFailed
  | stopHeartbeat
 deriving DecidableEq, Repr

/-- Outcome of the handler body: returned normally, or re-raised an
error to the transport layer. -/
inductive HandlerOutcome where
  | ok
  | raised
 deriving DecidableEq, Repr

/-- One iteration of the `for await` loop over the backend stream: the
chunk was pulled, translated and written successfully (`ok`), an error was
thrown somewhere in pulling/translating/writing (`err`), or the
end-of-stream sentinel was seen and the loop breaks (`done`). -/
inductive StreamStep where
  | ok
  | err
  | done
 deriving DecidableEq, Repr

/-- The `for await` loop: writes chunks in order until exhaustion, a
sentinel break, or a thrown error; the boolean reports whether an error
escaped the loop. -/
def runStreamLoop : List StreamStep → List HandlerAction × Bool
  | [] => ([], false)
  | StreamStep.ok :: rest =>
    let r := runStreamLoop rest
    (HandlerAction.writeChunk :: r.1, r.2)
  | StreamStep.err :: _ => ([], true)
  | StreamStep.done :: _ => ([], false)

/-- Does an error occur in the stream before exhaustion or the sentinel? -/
def pullsErr : List StreamStep → Bool
  | [] => false
  | StreamStep.ok :: rest => pullsErr rest
  | StreamStep.err :: _ => true
  | StreamStep.done :: _ => false

/-- The `streamSSE` body shared by both handlers: start the heartbeat,
run the loop; on normal exit call `markResponseComplete`, on a caught
error call `markRequestFailed` and re-throw; in both cases the `finally`
block stops the heartbeat last. -/
def streamingBody (steps : List StreamStep) :
    List HandlerAction × HandlerOutcome :=
  let r := runStreamLoop steps
  if r.2 then
    (HandlerAction.startHeartbeat :: r.1
        ++ [HandlerAction.markFailed, HandlerAction.stopHeartbeat],
      HandlerOutcome.raised)
  else
    (HandlerAction.startHeartbeat :: r.1
        ++ [HandlerAction.markComplete, HandlerAction.stopHeartbeat],
      HandlerOutcome.ok)

/-- The value `createChatCompletions` resolves to, as the handler sees it
dynamically: a plain JSON object with its own property names, or the
async iterable of raw stream events. -/
inductive BackendValue where
  | obj (keys : List String)
  | iter (steps : List StreamStep)

/-- `Object.hasOwn(response, k)`: own-property lookup; the async iterator
returned for a streaming response has no own `choices` property. -/
def hasOwnProperty : BackendValue → String → Bool
  | BackendValue.obj keys, k => keys.contains k
  | BackendValue.iter _, _ => false

/-- `isNonStreaming` from both handler files:
`Object.hasOwn(response, "choices")`. -/
def isNonStreaming (r : BackendValue) : Bool :=
  hasOwnProperty r "choices"

/-- The steps the handler would iterate for this value. -/
def BackendValue.steps : BackendValue → List StreamStep
  | BackendValue.obj _ => []
  | BackendValue.iter steps => steps

/-- The handler after `createChatCompletions` resolves: the non-streaming
branch replies with `c.json(response)` and does nothing else; otherwise
the streaming body runs. -/
def handleCompletionReply (r : BackendValue) :
    List HandlerAction × HandlerOutcome :=
  if isNonStreaming r then
    ([HandlerAction.jsonReply], HandlerOutcome.ok)
  else
    streamingBody r.steps

/-! ### Handler lemmas -/

lemma runStreamLoop_mem (steps : List StreamStep) :
    ∀ a ∈ (runStreamLoop steps).1, a = HandlerAction.writeChunk := by
  induction steps with
  | nil =>
    intro a ha
    cases ha
  | cons st rest ih =>
    cases st with
    | ok =>
      intro a ha
      simp only [runStreamLoop, List.mem_cons] at ha
      rcases ha with ha | ha
      · exact ha
      · exact ih a ha
    | err =>
      intro a ha
      cases ha
    | done =>
      intro a ha
      cases ha

lemma runStreamLoop_err (steps : List StreamStep) :
    (runStreamLoop steps).2 = pullsErr steps := by
  induction steps with
  | nil => rfl
  | cons st rest ih =>
    cases st with
    | ok => exact ih
    | err => rfl
    | done => rfl

lemma runStreamLoop_countP_eq_zero (steps : List StreamStep)
    (p : HandlerAction → Bool) (hp : p HandlerAction.writeChunk = false) :
    (runStreamLoop steps).1.countP p = 0 := by
  rw [List.countP_eq_zero]
  intro a ha
  rw [runStreamLoop_mem steps a ha]
  simp [hp]

/-- Boolean recogniser for `markComplete`. -/
def isMarkComplete : HandlerAction → Bool
  | HandlerAction.markComplete => true
  | _ => false

/-- Boolean recogniser for `markFailed`. -/
def isMarkFailed : HandlerAction → Bool
  | HandlerAction.markFailed => true
  | _ => false

/-- Boolean recogniser for `stopHeartbeat`. -/
def isStopHeartbeat : HandlerAction → Bool
  | HandlerAction.stopHeartbeat => true
  | _ => false

lemma getLast?_cons_append_pair {α : Type} (a : α) (l : List α) (x y : α) :
    (a :: (l ++ [x, y])).getLast? = some y := by
  have h : a :: (l ++ [x, y]) = ((a :: l) ++ [x]) ++ [y] := by simp
  rw [h, List.getLast?_concat]

/-- C5: in the native-protocol handler, a complete (non-streaming) backend
response is answered by `c.json(response)` alone — the reply path performs
no billing-cycle mutation: neither `markResponseComplete` nor
`markRequestFailed` is called. -/
theorem nonstreaming_reply_no_billing_mutation (r : BackendValue)
    (h : isNonStreaming r = true) :
    (handleCompletionReply r).1 = [HandlerAction.jsonReply]
      ∧ (handleCompletionReply r).1.countP isMarkComplete = 0
      ∧ (handleCompletionReply r).1.countP isMarkFailed = 0 := by
  unfold handleCompletionReply
  rw [if_pos h]
  refine ⟨rfl, ?_, ?_⟩ <;> rfl

/-- Witness for C5 at a concrete complete response object. -/
theorem nonstreaming_reply_no_billing_mutation_witness :
    (handleCompletionReply (BackendValue.obj ["id", "choices", "usage"])).1
        = [HandlerAction.jsonReply]
      ∧ (handleCompletionReply
          (BackendValue.obj ["id", "choices", "usage"])).1.countP
            isMarkComplete = 0
      ∧ (handleCompletionReply
          (BackendValue.obj ["id", "choices", "usage"])).1.countP
            isMarkFailed = 0 :=
  nonstreaming_reply_no_billing_mutation
    (BackendValue.obj ["id", "choices", "usage"]) (by decide)

/-- C6: in the streaming path, a stream that ends without error (by
exhaustion or the end sentinel) calls `markResponseComplete` exactly once
and `markRequestFailed` never; a stream in which pulling, translating or
writing throws calls `markRequestFailed` exactly once and re-raises the
error; and in both outcomes the heartbeat is stopped exactly once, as the
final cleanup action. -/
theorem streaming_outcome_billing_and_heartbeat (steps : List StreamStep) :
    (pullsErr steps = false →
      (streamingBody steps).1.countP isMarkComplete = 1
        ∧ (streamingBody steps).1.countP isMarkFailed = 0
        ∧ (streamingBody steps).2 = HandlerOutcome.ok)
    ∧ (pullsErr steps = true →
      (streamingBody steps).1.countP isMarkFailed = 1
        ∧ (streamingBody steps).1.countP isMarkComplete = 0
        ∧ (streamingBody steps).2 = HandlerOutcome.raised)
    ∧ (streamingBody steps).1.countP isStopHeartbeat = 1
    ∧ (streamingBody steps).1.getLast? = some HandlerAction.stopHeartbeat := by
  have herr := runStreamLoop_err steps
  have hc := runStreamLoop_countP_eq_zero steps isMarkComplete rfl
  have hf := runStreamLoop_countP_eq_zero steps isMarkFailed rfl
  have hs := runStreamLoop_countP_eq_zero steps isStopHeartbeat rfl
  simp only [streamingBody]
  cases hp : pullsErr steps with
  | false =>
    rw [hp] at herr
    rw [herr]
    rw [if_neg (by decide)]
    refine ⟨?_, ?_, ?_, ?_⟩
    · intro _
      refine ⟨?_, ?_, rfl⟩ <;>
        simp [List.countP_cons, List.countP_append, hc, hf,
          isMarkComplete, isMarkFailed]
    · intro hcontra
      exact absurd hcontra (by simp [hp])
    · simp [List.countP_cons, List.countP_append, hs, isStopHeartbeat]
    · exact getLast?_cons_append_pair _ _ _ _
  | true =>
    rw [hp] at herr
    rw [herr]
    rw [if_pos rfl]
    refine ⟨?_, ?_, ?_, ?_⟩
    · intro hcontra
      exact absurd hcontra (by simp [hp])
    · intro _
      refine ⟨?_, ?_, rfl⟩ <;>
        simp [List.countP_cons, List.countP_append, hc, hf,
          isMarkComplete, isMarkFailed]
    · simp [List.countP_cons, List.countP_append, hs, isStopHeartbeat]
    · exact getLast?_cons_append_pair _ _ _ _

/-- Witness for C6 on a concrete clean stream and a concrete failing
stream. -/
theorem streaming_outcome_billing_and_heartbeat_witness :
    ((streamingBody [StreamStep.ok, StreamStep.ok]).1.countP isMarkComplete
        = 1
      ∧ (streamingBody [StreamStep.ok, StreamStep.ok]).2 = HandlerOutcome.ok)
    ∧ ((streamingBody [StreamStep.ok, StreamStep.err]).1.countP isMarkFailed
        = 1
      ∧ (streamingBody [StreamStep.ok, StreamStep.err]).2
          = HandlerOutcome.raised)
    ∧ (streamingBody [StreamStep.ok, StreamStep.err]).1.getLast?
        = some HandlerAction.stopHeartbeat := by
  have ha := (streaming_outcome_billing_and_heartbeat
    [StreamStep.ok, StreamStep.ok]).1 rfl
  have hb := streaming_outcome_billing_and_heartbeat
    [StreamStep.ok, StreamStep.err]
  exact ⟨⟨ha.1, ha.2.2⟩, ⟨(hb.2.1 rfl).1, (hb.2.1 rfl).2.2⟩, hb.2.2.2⟩

lemma streamingBody_no_jsonReply (steps : List StreamStep) :
    HandlerAction.jsonReply ∉ (streamingBody steps).1 := by
  intro h
  have hmem : HandlerAction.jsonReply ∈ (runStreamLoop steps).1 := by
    simp only [streamingBody] at h
    split at h <;>
    · simp at h
      exact h
  have := runStreamLoop_mem steps HandlerAction.jsonReply hmem
  cases this

/-- C7: the handler treats the backend value as a complete non-streaming
response exactly when the value has an own property named `choices`: every
complete-response object with its `choices` field is answered by the JSON
reply, and the async iterable (which has no such own property) is always
driven through the streaming path. -/
theorem backend_shape_discrimination :
    (∀ r, isNonStreaming r = hasOwnProperty r "choices")
    ∧ (∀ keys, "choices" ∈ keys →
        isNonStreaming (BackendValue.obj keys) = true)
    ∧ (∀ steps, isNonStreaming (BackendValue.iter steps) = false)
    ∧ (∀ r, HandlerAction.jsonReply ∈ (handleCompletionReply r).1
        ↔ hasOwnProperty r "choices" = true) := by
  refine ⟨fun r => rfl, ?_, fun steps => rfl, ?_⟩
  · intro keys hk
    show List.contains keys "choices" = true
    exact List.elem_eq_true_of_mem hk
  · intro r
    unfold handleCompletionReply
    cases hr : isNonStreaming r with
    | true =>
      rw [if_pos rfl]
      constructor
      · intro _
        exact hr
      · intro _
        exact List.mem_singleton.mpr rfl
    | false =>
      rw [if_neg (by decide)]
      constructor
      · intro h
        exact absurd h (streamingBody_no_jsonReply _)
      · intro h
        have h2 : isNonStreaming r = true := h
        rw [hr] at h2
        cases h2

/-- Witness for C7 at concrete backend values of both shapes. -/
theorem backend_shape_discrimination_witness :
    isNonStreaming (BackendValue.obj ["id", "choices"]) = true
    ∧ isNonStreaming (BackendValue.iter [StreamStep.ok]) = false
    ∧ (HandlerAction.jsonReply
        ∈ (handleCompletionReply (BackendValue.obj ["id", "choices"])).1) := by
  refine ⟨?_, ?_, ?_⟩
  · exact backend_shape_discrimination.2.1 ["id", "choices"] (by decide)
  · exact backend_shape_discrimination.2.2.1 [StreamStep.ok]
  · exact (backend_shape_discrimination.2.2.2
      (BackendValue.obj ["id", "choices"])).mpr (by decide)

/-! ## SSE heartbeat manager (src/lib/sse-heartbeat.ts) -/

/-- Heartbeat configuration: interval, enabled flag, and max connection
duration in milliseconds (the manager's duration check treats 0 as "no
limit"). -/
structure SSEHeartbeatConfig where
  interval : Nat
  enabled : Bool
  maxConnectionDuration : Nat
 deriving DecidableEq, Repr

/-- JavaScript `Number(envVar) || dflt`: the environment value parsed as a
number (`none` models an unset variable or a NaN parse); 0 and NaN are
falsy, so both fall through to the default. -/
def jsNumberOr (v : Option Nat) (dflt : Nat) : Nat :=
  match v with
  | none => dflt
  | some n => if n = 0 then dflt else n

/-- `DEFAULT_HEARTBEAT_CONFIG` built from the three environment
variables: `Number(SSE_HEARTBEAT_INTERVAL) || 2000`,
`SSE_HEARTBEAT_ENABLED !== "false"`, and
`Number(SSE_MAX_CONNECTION_DURATION) || 600000`. -/
def DEFAULT_HEARTBEAT_CONFIG (envInterval : Option Nat)
    (envEnabled : Option String) (envMaxDuration : Option Nat) :
    SSEHeartbeatConfig :=
  { interval := jsNumberOr envInterval 2000,
    enabled := envEnabled ≠ some "false",
    maxConnectionDuration := jsNumberOr envMaxDuration 600000 }

/-- The duration check inside one timer tick of
`SSEHeartbeatManager.start`: stop the timer and invoke `onMaxDuration`
exactly when `maxConnectionDuration > 0` and the elapsed time exceeds
it. -/
def tickFiresMaxDuration (cfg : SSEHeartbeatConfig)
    (startTime now : Nat) : Bool :=
  decide (cfg.maxConnectionDuration > 0
    ∧ now - startTime > cfg.maxConnectionDuration)

/-- Run the timer over the given tick times: the count of `onMaxDuration`
invocations. Once the check fires the tick calls `this.stop()`, which
clears the timer, so no further ticks run. -/
def runHeartbeatTicks (cfg : SSEHeartbeatConfig) (startTime : Nat) :
    List Nat → Nat
  | [] => 0
  | t :: ts =>
    if tickFiresMaxDuration cfg startTime t then 1
    else runHeartbeatTicks cfg startTime ts

/-- C9 is right about the manager but wrong about the environment surface,
which is the code bug: the manager's duration check never fires when
`maxConnectionDuration` is literally 0, but `Number(env) || 600000` turns
the environment value `0` into 600000 — the documented "0 disables the
cap" cannot be expressed through `SSE_MAX_CONNECTION_DURATION`, and a tick
past 600000 ms then fires `onMaxDuration`. -/
theorem heartbeat_zero_env_duration_code_bug :
    (∀ i e startTime ts,
      runHeartbeatTicks
        { interval := i, enabled := e, maxConnectionDuration := 0 }
        startTime ts = 0)
    ∧ (DEFAULT_HEARTBEAT_CONFIG none none
        (some 0)).maxConnectionDuration = 600000
    ∧ runHeartbeatTicks (DEFAULT_HEARTBEAT_CONFIG none none (some 0))
        0 [2000, 600200] = 1 := by
  refine ⟨?_, rfl, by decide⟩
  intro i e startTime ts
  induction ts with
  | nil => rfl
  | cons t ts ih =>
    unfold runHeartbeatTicks
    rw [if_neg]
    · exact ih
    · simp [tickFiresMaxDuration]

/-! ## API-key middleware (src/lib/api-key-auth.ts) -/

/-- The characters of the string `Bearer ` (header values are modelled as
character lists so that `startsWith`/`slice` compute structurally). -/
def bearerChars : List Char := ['B', 'e', 'a', 'r', 'e', 'r', ' ']

/-- `authHeader?.startsWith("Bearer ")`. -/
def startsWithBearer (s : List Char) : Bool :=
  decide (s.take 7 = bearerChars)

/-- The key the middleware compares, or `none` when neither header
supplies one: a Bearer-prefixed `Authorization` header wins and its token
is `authHeader.slice(7)`; only otherwise is a truthy (non-empty)
`X-API-Key` consulted. -/
def extractProvidedKey (authHeader xApiKey : Option (List Char)) :
    Option (List Char) :=
  match authHeader with
  | some a =>
    if startsWithBearer a then some (a.drop 7)
    else
      match xApiKey with
      | some x => if x = [] then none else some x
      | none => none
  | none =>
    match xApiKey with
    | some x => if x = [] then none else some x
    | none => none

/-- `apiKeyAuth`: `true` means the request passes to `next()`, `false`
means HTTP 401. With no configured key (empty string is falsy) the
middleware is a no-op; otherwise the provided key must be truthy and
strictly equal to the configured key. -/
def apiKeyAuth (apiKey : List Char)
    (authHeader xApiKey : Option (List Char)) : Bool :=
  if apiKey = [] then true
  else
    match extractProvidedKey authHeader xApiKey with
    | none => false
    | some k => if k = [] then false else decide (k = apiKey)

/-- C10: with an API key configured and a Bearer-prefixed `Authorization`
header present, the `X-API-Key` header is ignored (the decision is the
same whatever it holds, even the correct key), and the request passes
exactly when the Bearer token — the header after `Bearer ` — equals the
configured key; otherwise it is rejected with 401. -/
theorem bearer_header_shadows_x_api_key (apiKey a : List Char)
    (x1 x2 : Option (List Char)) (hk : apiKey ≠ [])
    (hb : startsWithBearer a = true) :
    apiKeyAuth apiKey (some a) x1 = apiKeyAuth apiKey (some a) x2
    ∧ (apiKeyAuth apiKey (some a) x1 = true ↔ a.drop 7 = apiKey) := by
  have hextract : ∀ x, extractProvidedKey (some a) x = some (a.drop 7) := by
    intro x
    simp only [extractProvidedKey]
    rw [if_pos hb]
  unfold apiKeyAuth
  rw [if_neg hk, if_neg hk, hextract, hextract]
  refine ⟨rfl, ?_⟩
  change (if List.drop 7 a = [] then false
      else decide (List.drop 7 a = apiKey)) = true ↔ List.drop 7 a = apiKey
  by_cases hd : a.drop 7 = []
  · rw [if_pos hd]
    constructor
    · intro h
      cases h
    · intro h
      rw [hd] at h
      exact absurd h.symm hk
  · rw [if_neg hd]
    exact decide_eq_true_iff

/-- Witness for C10: with key `k`, header `Bearer k` passes whatever
`X-API-Key` carries, and the pass condition is the token equality. -/
theorem bearer_header_shadows_x_api_key_witness :
    apiKeyAuth ['k'] (some ['B', 'e', 'a', 'r', 'e', 'r', ' ', 'k'])
        (some ['w', 'r', 'o', 'n', 'g'])
      = apiKeyAuth ['k'] (some ['B', 'e', 'a', 'r', 'e', 'r', ' ', 'k'])
        (some ['k'])
    ∧ (apiKeyAuth ['k'] (some ['B', 'e', 'a', 'r', 'e', 'r', ' ', 'k'])
        (some ['w', 'r', 'o', 'n', 'g']) = true
      ↔ List.drop 7 ['B', 'e', 'a', 'r', 'e', 'r', ' ', 'k'] = ['k']) :=
  bearer_header_shadows_x_api_key ['k']
    ['B', 'e', 'a', 'r', 'e', 'r', ' ', 'k']
    (some ['w', 'r', 'o', 'n', 'g']) (some ['k'])
    (by decide) (by decide)

/-! ## Streaming protocol translator (`translateChunkToAnthropicEvents`)

Modelled from the spec: the repository file `stream-translation.ts` that
defines `translateChunkToAnthropicEvents` is not among the sources, only
its caller in the Anthropic messages handler is, so the stateful chunk →
event expander below follows the design text: per-stream state
(`messageStartSent`, current block index, open-block flag, tool
accumulators), one `message_start` on the first frame, strictly sequential
blocks with increasing indices, kind switches forcing a block stop, tool
fragments buffered per backend call index, usage folded on every frame,
and the terminal frame closing any open block then emitting one
`message_delta` and one `message_stop`. -/

/-- Anthropic stop reasons produced by the finish-reason mapping. -/
inductive StopReason where
  | end_turn
  | max_tokens
  | tool_use
 deriving DecidableEq, Repr

/-- Backend finish reasons carried by the terminal frame. -/
inductive FinishReason where
  | stop
  | length
  | tool_calls
 deriving DecidableEq, Repr

/-- Finish-reason mapping: length limit → `max_tokens`, tool invocation →
`tool_use`, normal stop → `end_turn`. -/
def mapStopReason : FinishReason → StopReason
  | FinishReason.stop => StopReason.end_turn
  | FinishReason.length => StopReason.max_tokens
  | FinishReason.tool_calls => StopReason.tool_use

/-- Kinds of content block in the block-structured output protocol. -/
inductive BlockKind where
  | text
  | tool_use
 deriving DecidableEq, Repr

/-- A tool-call fragment of a backend delta frame: the backend call index,
an optional tool name (present on the first fragment of a call) and an
optional piece of argument JSON text. -/
structure ToolFrag where
  index : Nat
  name : Option String
  args : Option String
 deriving DecidableEq, Repr

/-- One backend delta frame: optional text fragment, optional tool-call
fragment, optional usage count, and — on the terminal frame only — a
finish reason. -/
structure Frame where
  text : Option String
  tool : Option ToolFrag
  usage : Option Nat
  finish : Option FinishReason
 deriving DecidableEq, Repr

/-- An event of the outbound Anthropic stream. -/
inductive AEvent where
  | message_start
  | content_block_start (index : Nat) (kind : BlockKind)
  | content_block_delta (index : Nat) (piece : String)
  | content_block_stop (index : Nat)
  | message_delta (stop : StopReason) (usage : Nat)
  | message_stop
 deriving DecidableEq, Repr

/-- Per-stream translation state (`AnthropicStreamState` in the caller):
whether `message_start` went out, the current block index, whether a block
is open and of which kind, the backend index of the open tool block, the
tool accumulators (backend index, name, buffered argument text) and the
running usage total. -/
structure AnthropicStreamState where
  messageStartSent : Bool
  contentBlockIndex : Nat
  contentBlockOpen : Bool
  blockKind : BlockKind
  curToolIndex : Nat
  toolCalls : List (Nat × String × String)
  usageTotal : Nat
 deriving DecidableEq, Repr

/-- The fresh state the handler builds per stream. -/
def initStreamState : AnthropicStreamState :=
  { messageStartSent := false, contentBlockIndex := 0,
    contentBlockOpen := false, blockKind := BlockKind.text,
    curToolIndex := 0, toolCalls := [], usageTotal := 0 }

/-- Close the open block, if any: emit its `content_block_stop` and move
to the next block index. -/
def closeBlock (s : AnthropicStreamState) :
    List AEvent × AnthropicStreamState :=
  if s.contentBlockOpen then
    ([AEvent.content_block_stop s.contentBlockIndex],
      { s with contentBlockOpen := false,
               contentBlockIndex := s.contentBlockIndex + 1 })
  else
    ([], s)

/-- Open a block of the given kind at the current index. -/
def openBlock (s : AnthropicStreamState) (k : BlockKind) :
    List AEvent × AnthropicStreamState :=
  ([AEvent.content_block_start s.contentBlockIndex k],
    { s with contentBlockOpen := true, blockKind := k })

/-- Append argument text to the accumulator of a backend call index. -/
def appendToolArgs (acc : List (Nat × String × String)) (idx : Nat)
    (piece : String) : List (Nat × String × String) :=
  acc.map fun e => if e.1 = idx then (e.1, e.2.1, e.2.2 ++ piece) else e

/-- Handle the text fragment of a frame: an open tool block is stopped
first; a text block is opened if none is open; the fragment goes out as a
`content_block_delta`. -/
def handleTextFrag (s : AnthropicStreamState) :
    Option String → List AEvent × AnthropicStreamState
  | none => ([], s)
  | some txt =>
    if s.contentBlockOpen then
      if s.blockKind = BlockKind.text then
        ([AEvent.content_block_delta s.contentBlockIndex txt], s)
      else
        let c := closeBlock s
        let o := openBlock c.2 BlockKind.text
        (c.1 ++ o.1
            ++ [AEvent.content_block_delta o.2.contentBlockIndex txt],
          o.2)
    else
      let o := openBlock s BlockKind.text
      (o.1 ++ [AEvent.content_block_delta o.2.contentBlockIndex txt], o.2)

/-- Handle the tool fragment of a frame: a fragment for the open tool
block's own index appends to its buffered arguments and emits a delta; any
other fragment stops the open block (if any), opens a tool-use block for
its index (name taken from the fragment, full parsing of the buffer
deferred to block close) and emits a delta when argument text is
present. -/
def handleToolFrag (s : AnthropicStreamState) :
    Option ToolFrag → List AEvent × AnthropicStreamState
  | none => ([], s)
  | some tf =>
    if s.contentBlockOpen ∧ s.blockKind = BlockKind.tool_use
        ∧ s.curToolIndex = tf.index then
      match tf.args with
      | some piece =>
        ([AEvent.content_block_delta s.contentBlockIndex piece],
          { s with toolCalls := appendToolArgs s.toolCalls tf.index piece })
      | none => ([], s)
    else
      let c := closeBlock s
      let s2 := { c.2 with
        curToolIndex := tf.index,
        toolCalls := c.2.toolCalls
            ++ [(tf.index, tf.name.getD "", tf.args.getD "")] }
      let o := openBlock s2 BlockKind.tool_use
      match tf.args with
      | some piece =>
        (c.1 ++ o.1
            ++ [AEvent.content_block_delta o.2.contentBlockIndex piece],
          o.2)
      | none => (c.1 ++ o.1, o.2)

/-- Handle the finish reason: the terminal frame closes any open block,
then emits exactly one `message_delta` (mapped stop reason, final usage)
and one `message_stop`. -/
def handleFinish (s : AnthropicStreamState) :
    Option FinishReason → List AEvent × AnthropicStreamState
  | none => ([], s)
  | some fr =>
    let c := closeBlock s
    (c.1 ++ [AEvent.message_delta (mapStopReason fr) c.2.usageTotal,
        AEvent.message_stop],
      c.2)

/-- `translateChunkToAnthropicEvents`: expand one backend frame into the
ordered list of Anthropic events, threading the per-stream state:
`message_start` before anything else on the first frame, then the text
fragment, the tool fragment, usage folding, and the terminal events. -/
def translateChunkToAnthropicEvents (s : AnthropicStreamState)
    (f : Frame) : List AEvent × AnthropicStreamState :=
  let pre : List AEvent × AnthropicStreamState :=
    if s.messageStartSent then ([], s)
    else ([AEvent.message_start], { s with messageStartSent := true })
  let s1 := { pre.2 with usageTotal := pre.2.usageTotal + f.usage.getD 0 }
  let t := handleTextFrag s1 f.text
  let u := handleToolFrag t.2 f.tool
  let e := handleFinish u.2 f.finish
  (pre.1 ++ t.1 ++ u.1 ++ e.1, e.2)

/-- Feed a whole frame sequence through the stateful expander. -/
def translateFrames (s : AnthropicStreamState) :
    List Frame → List AEvent × AnthropicStreamState
  | [] => ([], s)
  | f :: fs =>
    let r := translateChunkToAnthropicEvents s f
    let rest := translateFrames r.2 fs
    (r.1 ++ rest.1, rest.2)

/-- Boolean recognisers over events. -/
def isMessageStart : AEvent → Bool
  | AEvent.message_start => true
  | _ => false

def isMessageStop : AEvent → Bool
  | AEvent.message_stop => true
  | _ => false

def isBlockStart : AEvent → Bool
  | AEvent.content_block_start _ _ => true
  | _ => false

def isBlockStop : AEvent → Bool
  | AEvent.content_block_stop _ => true
  | _ => false

/-- Scan the block structure of an event list: starting from an
open-block flag, a `content_block_start` is legal only when no block is
open and a `content_block_stop` only when one is; the result is the final
open-block flag, or `none` when the sequence is ill-nested (which also
rules out two simultaneously open blocks). -/
def scanBlocks : Bool → List AEvent → Option Bool
  | b, [] => some b
  | b, e :: es =>
    if isBlockStart e then
      if b then none else scanBlocks true es
    else if isBlockStop e then
      if b then scanBlocks false es else none
    else
      scanBlocks b es

/-- 1 when a block is open, else 0 (for counting balance). -/
def openNat (s : AnthropicStreamState) : Nat :=
  if s.contentBlockOpen then 1 else 0

/-- The invariant preserved by every event batch a non-terminal fragment
produces: no message lifecycle events, a legal block scan from the source
state's open flag to the target state's, balanced start/stop counts, and
`messageStartSent` untouched. -/
def StepOK (s s' : AnthropicStreamState) (es : List AEvent) : Prop :=
  es.countP isMessageStart = 0
  ∧ es.countP isMessageStop = 0
  ∧ scanBlocks s.contentBlockOpen es = some s'.contentBlockOpen
  ∧ es.countP isBlockStart + openNat s = es.countP isBlockStop + openNat s'
  ∧ s'.messageStartSent = s.messageStartSent

lemma scanBlocks_append (b : Bool) (xs ys : List AEvent) :
    scanBlocks b (xs ++ ys)
      = (scanBlocks b xs).bind fun b2 => scanBlocks b2 ys := by
  induction xs generalizing b with
  | nil => rfl
  | cons e xs ih =>
    simp only [List.cons_append, scanBlocks]
    split
    · split
      · rfl
      · exact ih true
    · split
      · split
        · exact ih false
        · rfl
      · exact ih b

lemma stepOK_refl (s : AnthropicStreamState) : StepOK s s [] := by
  refine ⟨rfl, rfl, rfl, rfl, rfl⟩

lemma stepOK_comp {s s' s'' : AnthropicStreamState}
    {es es' : List AEvent} (h1 : StepOK s s' es) (h2 : StepOK s' s'' es') :
    StepOK s s'' (es ++ es') := by
  obtain ⟨a1, a2, a3, a4, a5⟩ := h1
  obtain ⟨b1, b2, b3, b4, b5⟩ := h2
  refine ⟨?_, ?_, ?_, ?_, ?_⟩
  · rw [List.countP_append, a1, b1]
  · rw [List.countP_append, a2, b2]
  · rw [scanBlocks_append, a3]
    exact b3
  · rw [List.countP_append, List.countP_append]
    omega
  · rw [b5, a5]

lemma stepOK_same_fields {s s' : AnthropicStreamState} {es : List AEvent}
    (h : StepOK s s' es)
    {s2 s2' : AnthropicStreamState}
    (ho : s2.contentBlockOpen = s.contentBlockOpen)
    (ho' : s2'.contentBlockOpen = s'.contentBlockOpen)
    (hm : s2.messageStartSent = s.messageStartSent)
    (hm' : s2'.messageStartSent = s'.messageStartSent) :
    StepOK s2 s2' es := by
  obtain ⟨a1, a2, a3, a4, a5⟩ := h
  refine ⟨a1, a2, ?_, ?_, ?_⟩
  · rw [ho, ho', a3]
  · simp only [openNat, ho, ho']
    simp only [openNat] at a4
    omega
  · rw [hm', hm, a5]

lemma closeBlock_stepOK (s : AnthropicStreamState) :
    StepOK s (closeBlock s).2 (closeBlock s).1
      ∧ (closeBlock s).2.contentBlockOpen = false
      ∧ (closeBlock s).2.messageStartSent = s.messageStartSent := by
  unfold closeBlock
  split
  · next h =>
    refine ⟨⟨rfl, rfl, ?_, ?_, rfl⟩, rfl, rfl⟩
    · simp [scanBlocks, isBlockStart, isBlockStop, h]
    · simp [List.countP_cons, isBlockStart, isBlockStop, openNat, h]
  · next h =>
    have hb : s.contentBlockOpen = false := by
      cases hx : s.contentBlockOpen
      · rfl
      · exact absurd hx h
    refine ⟨stepOK_refl s, hb, rfl⟩

lemma openBlock_stepOK (s : AnthropicStreamState) (k : BlockKind)
    (h : s.contentBlockOpen = false) :
    StepOK s (openBlock s k).2 (openBlock s k).1
      ∧ (openBlock s k).2.contentBlockOpen = true
      ∧ (openBlock s k).2.messageStartSent = s.messageStartSent := by
  unfold openBlock
  refine ⟨⟨rfl, rfl, ?_, ?_, rfl⟩, rfl, rfl⟩
  · simp [scanBlocks, isBlockStart, h]
  · simp [List.countP_cons, isBlockStart, isBlockStop, openNat, h]

lemma delta_stepOK (s : AnthropicStreamState) (i : Nat) (p : String)
    {s' : AnthropicStreamState}
    (ho : s'.contentBlockOpen = s.contentBlockOpen)
    (hm : s'.messageStartSent = s.messageStartSent) :
    StepOK s s' [AEvent.content_block_delta i p] := by
  refine ⟨rfl, rfl, ?_, ?_, hm⟩
  · simp [scanBlocks, isBlockStart, isBlockStop, ho]
  · simp [List.countP_cons, isBlockStart, isBlockStop, openNat, ho]

lemma bool_eq_false {b : Bool} (h : ¬ b = true) : b = false := by
  cases hx : b
  · rfl
  · exact absurd hx h

lemma handleTextFrag_stepOK (s : AnthropicStreamState)
    (ot : Option String) :
    StepOK s (handleTextFrag s ot).2 (handleTextFrag s ot).1 := by
  cases ot with
  | none => exact stepOK_refl s
  | some txt =>
    simp only [handleTextFrag]
    split
    · split
      · exact delta_stepOK s _ _ rfl rfl
      · have hc := closeBlock_stepOK s
        have ho := openBlock_stepOK (closeBlock s).2 BlockKind.text hc.2.1
        exact stepOK_comp (stepOK_comp hc.1 ho.1)
          (delta_stepOK _ _ _ rfl rfl)
    · next hopen =>
      have ho := openBlock_stepOK s BlockKind.text (bool_eq_false hopen)
      exact stepOK_comp ho.1 (delta_stepOK _ _ _ rfl rfl)

lemma handleToolFrag_stepOK (s : AnthropicStreamState)
    (otf : Option ToolFrag) :
    StepOK s (handleToolFrag s otf).2 (handleToolFrag s otf).1 := by
  cases otf with
  | none => exact stepOK_refl s
  | some tf =>
    simp only [handleToolFrag]
    split
    · cases hargs : tf.args with
      | some piece => exact delta_stepOK s _ _ rfl rfl
      | none => exact stepOK_refl s
    · have hc := closeBlock_stepOK s
      have ho := openBlock_stepOK
        { (closeBlock s).2 with
            curToolIndex := tf.index,
            toolCalls := (closeBlock s).2.toolCalls
              ++ [(tf.index, tf.name.getD "", tf.args.getD "")] }
        BlockKind.tool_use hc.2.1
      have ho' := stepOK_same_fields ho.1 rfl rfl rfl rfl
      cases hargs : tf.args with
      | some piece =>
        exact stepOK_comp (stepOK_comp hc.1 ho')
          (delta_stepOK _ _ _ rfl rfl)
      | none =>
        exact stepOK_comp hc.1 ho'

lemma handleFinish_some_props (s : AnthropicStreamState)
    (fr : FinishReason) :
    (handleFinish s (some fr)).1.countP isMessageStart = 0
    ∧ (handleFinish s (some fr)).1.countP isMessageStop = 1
    ∧ scanBlocks s.contentBlockOpen (handleFinish s (some fr)).1
        = some false
    ∧ (handleFinish s (some fr)).1.countP isBlockStart + openNat s
        = (handleFinish s (some fr)).1.countP isBlockStop
    ∧ (handleFinish s (some fr)).1.getLast? = some AEvent.message_stop
    ∧ (handleFinish s (some fr)).1 ≠ [] := by
  simp only [handleFinish, closeBlock]
  split
  · next h =>
    rw [openNat, if_pos h]
    refine ⟨rfl, rfl, ?_, rfl, rfl, by simp⟩
    rw [h]
    rfl
  · next h =>
    rw [openNat, if_neg h]
    refine ⟨rfl, rfl, ?_, rfl, rfl, by simp⟩
    rw [bool_eq_false h]
    rfl

lemma translate_eq_of_started (s : AnthropicStreamState) (f : Frame)
    (hm : s.messageStartSent = true) (hf : f.finish = none) :
    translateChunkToAnthropicEvents s f
      = ((handleTextFrag
            { s with usageTotal := s.usageTotal + f.usage.getD 0 }
            f.text).1
          ++ (handleToolFrag
              (handleTextFrag
                { s with usageTotal := s.usageTotal + f.usage.getD 0 }
                f.text).2 f.tool).1,
        (handleToolFrag
            (handleTextFrag
              { s with usageTotal := s.usageTotal + f.usage.getD 0 }
              f.text).2 f.tool).2) := by
  simp only [translateChunkToAnthropicEvents]
  rw [if_pos hm, hf]
  simp [handleFinish]

lemma translate_started_stepOK (s : AnthropicStreamState) (f : Frame)
    (hm : s.messageStartSent = true) (hf : f.finish = none) :
    StepOK s (translateChunkToAnthropicEvents s f).2
      (translateChunkToAnthropicEvents s f).1 := by
  have ht := handleTextFrag_stepOK
    { s with usageTotal := s.usageTotal + f.usage.getD 0 } f.text
  have ht' := stepOK_same_fields ht rfl rfl rfl rfl
  have hu := handleToolFrag_stepOK
    (handleTextFrag { s with usageTotal := s.usageTotal + f.usage.getD 0 }
      f.text).2 f.tool
  rw [translate_eq_of_started s f hm hf]
  exact stepOK_comp ht' hu

lemma translate_first_split (s : AnthropicStreamState) (f : Frame)
    (hm : s.messageStartSent = false) :
    translateChunkToAnthropicEvents s f
      = (AEvent.message_start
            :: (translateChunkToAnthropicEvents
                { s with messageStartSent := true } f).1,
          (translateChunkToAnthropicEvents
              { s with messageStartSent := true } f).2) := by
  simp [translateChunkToAnthropicEvents, hm]

/-- The invariant carried along the prefix of non-terminal frames: before
`message_start` goes out nothing has been emitted and no block is open;
afterwards the emitted prefix starts with the unique `message_start`, has
no `message_stop`, scans to the state's open-block flag, and has balanced
block starts/stops. -/
def MidInv (evs : List AEvent) (s : AnthropicStreamState) : Prop :=
  (s.messageStartSent = false → evs = [] ∧ s.contentBlockOpen = false)
  ∧ (s.messageStartSent = true →
      evs.head? = some AEvent.message_start
        ∧ evs.countP isMessageStart = 1)
  ∧ evs.countP isMessageStop = 0
  ∧ scanBlocks false evs = some s.contentBlockOpen
  ∧ evs.countP isBlockStart = evs.countP isBlockStop + openNat s

lemma midInv_init : MidInv [] initStreamState := by
  refine ⟨fun _ => ⟨rfl, rfl⟩, fun h => absurd h (by decide), rfl, rfl, rfl⟩

lemma midInv_step (evs : List AEvent) (s : AnthropicStreamState)
    (f : Frame) (hI : MidInv evs s) (hf : f.finish = none) :
    MidInv (evs ++ (translateChunkToAnthropicEvents s f).1)
      (translateChunkToAnthropicEvents s f).2 := by
  obtain ⟨i0, i1, i2, i3, i4⟩ := hI
  cases hm : s.messageStartSent with
  | true =>
    obtain ⟨c1, c2, c3, c4, c5⟩ := translate_started_stepOK s f hm hf
    have hh := i1 hm
    refine ⟨?_, ?_, ?_, ?_, ?_⟩
    · intro hfalse
      rw [c5, hm] at hfalse
      cases hfalse
    · intro _
      constructor
      · rcases evs with _ | ⟨e, evs'⟩
        · exact absurd hh.1 (by simp)
        · simpa using hh.1
      · rw [List.countP_append, hh.2, c1]
    · rw [List.countP_append, i2, c2]
    · rw [scanBlocks_append, i3]
      exact c3
    · rw [List.countP_append, List.countP_append]
      omega
  | false =>
    obtain ⟨hevs, hopen⟩ := i0 hm
    subst hevs
    rw [translate_first_split s f hm]
    obtain ⟨c1, c2, c3, c4, c5⟩ := translate_started_stepOK
      { s with messageStartSent := true } f rfl hf
    refine ⟨?_, ?_, ?_, ?_, ?_⟩
    · intro hfalse
      rw [c5] at hfalse
      exact absurd hfalse (by simp)
    · intro _
      refine ⟨rfl, ?_⟩
      simp [List.countP_cons, c1, isMessageStart]
    · simp [List.countP_cons, c2, isMessageStop]
    · simp only [List.nil_append]
      have hstep : scanBlocks false (AEvent.message_start
            :: (translateChunkToAnthropicEvents
              { s with messageStartSent := true } f).1)
          = scanBlocks false (translateChunkToAnthropicEvents
              { s with messageStartSent := true } f).1 := by
        simp [scanBlocks, isBlockStart, isBlockStop]
      rw [hstep]
      have hRopen : ({ s with messageStartSent := true }
          : AnthropicStreamState).contentBlockOpen = false := hopen
      rw [← hRopen]
      exact c3
    · simp only [List.nil_append, List.countP_cons]
      have h4 : openNat { s with messageStartSent := true } = 0 := by
        simp [openNat, hopen]
      rw [h4] at c4
      simp [isBlockStart, isBlockStop]
      omega

lemma translateFrames_midInv (fs : List Frame) (s : AnthropicStreamState)
    (evs : List AEvent) (hI : MidInv evs s)
    (hall : ∀ g ∈ fs, g.finish = none) :
    MidInv (evs ++ (translateFrames s fs).1) (translateFrames s fs).2 := by
  induction fs generalizing s evs with
  | nil => simpa [translateFrames] using hI
  | cons f fs ih =>
    simp only [translateFrames]
    rw [← List.append_assoc]
    exact ih _ _ (midInv_step evs s f hI (hall f (by simp)))
      (fun g hg => hall g (by simp [hg]))

lemma translateFrames_append (s : AnthropicStreamState)
    (fs gs : List Frame) :
    translateFrames s (fs ++ gs)
      = ((translateFrames s fs).1
          ++ (translateFrames (translateFrames s fs).2 gs).1,
        (translateFrames (translateFrames s fs).2 gs).2) := by
  induction fs generalizing s with
  | nil => simp [translateFrames]
  | cons f fs ih =>
    simp only [List.cons_append, translateFrames, List.append_eq]
    rw [ih]
    simp [List.append_assoc]

lemma translate_eq_started_terminal (s : AnthropicStreamState) (f : Frame)
    (hm : s.messageStartSent = true) :
    translateChunkToAnthropicEvents s f
      = ((handleTextFrag
            { s with usageTotal := s.usageTotal + f.usage.getD 0 }
            f.text).1
          ++ (handleToolFrag
              (handleTextFrag
                { s with usageTotal := s.usageTotal + f.usage.getD 0 }
                f.text).2 f.tool).1
          ++ (handleFinish
              (handleToolFrag
                (handleTextFrag
                  { s with usageTotal := s.usageTotal + f.usage.getD 0 }
                  f.text).2 f.tool).2 f.finish).1,
        (handleFinish
            (handleToolFrag
              (handleTextFrag
                { s with usageTotal := s.usageTotal + f.usage.getD 0 }
                f.text).2 f.tool).2 f.finish).2) := by
  simp only [translateChunkToAnthropicEvents]
  rw [if_pos hm]
  simp

lemma translate_terminal_started_props (s : AnthropicStreamState)
    (f : Frame) (fr : FinishReason) (hm : s.messageStartSent = true)
    (hfin : f.finish = some fr) :
    (translateChunkToAnthropicEvents s f).1.countP isMessageStart = 0
    ∧ (translateChunkToAnthropicEvents s f).1.countP isMessageStop = 1
    ∧ scanBlocks s.contentBlockOpen
        (translateChunkToAnthropicEvents s f).1 = some false
    ∧ (translateChunkToAnthropicEvents s f).1.countP isBlockStart
          + openNat s
        = (translateChunkToAnthropicEvents s f).1.countP isBlockStop
    ∧ (translateChunkToAnthropicEvents s f).1.getLast?
        = some AEvent.message_stop
    ∧ (translateChunkToAnthropicEvents s f).1 ≠ [] := by
  have ht := handleTextFrag_stepOK
    { s with usageTotal := s.usageTotal + f.usage.getD 0 } f.text
  have ht' : StepOK s
      (handleTextFrag { s with usageTotal := s.usageTotal + f.usage.getD 0 }
        f.text).2
      (handleTextFrag { s with usageTotal := s.usageTotal + f.usage.getD 0 }
        f.text).1 :=
    stepOK_same_fields ht rfl rfl rfl rfl
  have hu := handleToolFrag_stepOK
    (handleTextFrag { s with usageTotal := s.usageTotal + f.usage.getD 0 }
      f.text).2 f.tool
  obtain ⟨a1, a2, a3, a4, a5⟩ := stepOK_comp ht' hu
  obtain ⟨b1, b2, b3, b4, b5, b6⟩ := handleFinish_some_props
    (handleToolFrag
      (handleTextFrag { s with usageTotal := s.usageTotal + f.usage.getD 0 }
        f.text).2 f.tool).2 fr
  rw [translate_eq_started_terminal s f hm, hfin]
  dsimp only
  simp only [List.countP_append] at a1 a2 a4
  refine ⟨?_, ?_, ?_, ?_, ?_, ?_⟩
  · simp only [List.countP_append]
    omega
  · simp only [List.countP_append]
    omega
  · rw [scanBlocks_append, a3]
    exact b3
  · simp only [List.countP_append]
    omega
  · rw [List.getLast?_append_of_ne_nil _ b6]
    exact b5
  · simp [b6]

/-- C4 (translator modelled from the spec, its file being absent from the
sources): for every stream of delta frames — any number of non-terminal
frames followed by the terminal frame carrying the finish reason — the
emitted events start with the single `message_start`, block starts and
stops are equal in number and properly nested with never two blocks open
at once (`scanBlocks` succeeds and ends with no open block), and the
single `message_stop` is the last event, so nothing follows it. -/
theorem stream_translation_invariants (fs : List Frame) (f : Frame)
    (hall : ∀ g ∈ fs, g.finish = none) (hf : f.finish.isSome = true) :
    (translateFrames initStreamState (fs ++ [f])).1.head?
        = some AEvent.message_start
    ∧ (translateFrames initStreamState (fs ++ [f])).1.countP
        isMessageStart = 1
    ∧ (translateFrames initStreamState (fs ++ [f])).1.countP isBlockStart
        = (translateFrames initStreamState (fs ++ [f])).1.countP isBlockStop
    ∧ scanBlocks false (translateFrames initStreamState (fs ++ [f])).1
        = some false
    ∧ (translateFrames initStreamState (fs ++ [f])).1.countP
        isMessageStop = 1
    ∧ (translateFrames initStreamState (fs ++ [f])).1.getLast?
        = some AEvent.message_stop := by
  obtain ⟨fr, hfin⟩ := Option.isSome_iff_exists.mp hf
  have hpre := translateFrames_midInv fs initStreamState [] midInv_init hall
  rw [List.nil_append] at hpre
  rw [translateFrames_append initStreamState fs [f]]
  rcases hPS : translateFrames initStreamState fs with ⟨P, sP⟩
  rw [hPS] at hpre
  dsimp only at hpre ⊢
  have hsingle : (translateFrames sP [f]).1
      = (translateChunkToAnthropicEvents sP f).1 := by
    simp [translateFrames]
  rw [hsingle]
  obtain ⟨i0, i1, i2, i3, i4⟩ := hpre
  cases hm : sP.messageStartSent with
  | true =>
    obtain ⟨t1, t2, t3, t4, t5, t6⟩ :=
      translate_terminal_started_props sP f fr hm hfin
    have hh := i1 hm
    refine ⟨?_, ?_, ?_, ?_, ?_, ?_⟩
    · cases hP : P with
      | nil =>
        rw [hP] at hh
        exact absurd hh.1 (by simp)
      | cons e Q =>
        rw [hP] at hh
        simpa using hh.1
    · rw [List.countP_append, hh.2, t1]
    · rw [List.countP_append, List.countP_append]
      omega
    · rw [scanBlocks_append, i3]
      exact t3
    · rw [List.countP_append, i2, t2]
    · rw [List.getLast?_append_of_ne_nil _ t6]
      exact t5
  | false =>
    obtain ⟨hP, hopen⟩ := i0 hm
    rw [hP, List.nil_append]
    rw [translate_first_split sP f hm]
    obtain ⟨t1, t2, t3, t4, t5, t6⟩ :=
      translate_terminal_started_props
        { sP with messageStartSent := true } f fr rfl hfin
    refine ⟨rfl, ?_, ?_, ?_, ?_, ?_⟩
    · simp [List.countP_cons, t1, isMessageStart]
    · simp only [List.countP_cons]
      have h4 : openNat { sP with messageStartSent := true } = 0 := by
        simp [openNat, hopen]
      rw [h4] at t4
      simp [isBlockStart, isBlockStop]
      omega
    · have hstep : scanBlocks false (AEvent.message_start
            :: (translateChunkToAnthropicEvents
              { sP with messageStartSent := true } f).1)
          = scanBlocks false (translateChunkToAnthropicEvents
              { sP with messageStartSent := true } f).1 := by
        simp [scanBlocks, isBlockStart, isBlockStop]
      rw [hstep]
      nth_rewrite 1 [← hopen]
      exact t3
    · simp [List.countP_cons, t2, isMessageStop]
    · have hsplit : AEvent.message_start
          :: (translateChunkToAnthropicEvents
            { sP with messageStartSent := true } f).1
          = [AEvent.message_start]
            ++ (translateChunkToAnthropicEvents
              { sP with messageStartSent := true } f).1 := rfl
      rw [hsplit, List.getLast?_append_of_ne_nil _ t6]
      exact t5

/-- The spec's text-streaming scenario: two text fragments then a normal
stop. -/
def demoTextFrame1 : Frame :=
  { text := some "Hello", tool := none, usage := none, finish := none }

/-- Second text fragment of the scenario. -/
def demoTextFrame2 : Frame :=
  { text := some " world", tool := none, usage := none, finish := none }

/-- The scenario's terminal frame with usage and a normal stop. -/
def demoTerminalFrame : Frame :=
  { text := none, tool := none, usage := some 10,
    finish := some FinishReason.stop }

/-- Witness for C4 on the spec's concrete text-stream scenario. -/
theorem stream_translation_invariants_witness :
    (translateFrames initStreamState
        ([demoTextFrame1, demoTextFrame2] ++ [demoTerminalFrame])).1.head?
        = some AEvent.message_start
    ∧ (translateFrames initStreamState
        ([demoTextFrame1, demoTextFrame2]
          ++ [demoTerminalFrame])).1.countP isMessageStart = 1
    ∧ (translateFrames initStreamState
        ([demoTextFrame1, demoTextFrame2]
          ++ [demoTerminalFrame])).1.countP isBlockStart
        = (translateFrames initStreamState
            ([demoTextFrame1, demoTextFrame2]
              ++ [demoTerminalFrame])).1.countP isBlockStop
    ∧ scanBlocks false (translateFrames initStreamState
        ([demoTextFrame1, demoTextFrame2] ++ [demoTerminalFrame])).1
        = some false
    ∧ (translateFrames initStreamState
        ([demoTextFrame1, demoTextFrame2]
          ++ [demoTerminalFrame])).1.countP isMessageStop = 1
    ∧ (translateFrames initStreamState
        ([demoTextFrame1, demoTextFrame2]
          ++ [demoTerminalFrame])).1.getLast?
        = some AEvent.message_stop :=
  stream_translation_invariants [demoTextFrame1, demoTextFrame2]
    demoTerminalFrame (by decide) (by decide)
